import Mathlib

/-!
chrome-tea: browser allocator, endpoint discovery and abort monitor

A shallow embedding of `chrome.go` (package `chrometea`).

Conventions of the embedding.

* A Go `string` is a Lean `String`.  Offsets into a string are counted in
  characters; Go counts bytes.  The two agree on ASCII text, which is what
  every concrete evaluation below uses.
* A Go `error` is represented by its message.
* Calls into the operating system or the network (`ioutil.TempDir`,
  `os.Getuid`, `exec.LookPath`, `net.ResolveIPAddr`, `cmd.Start`, ...) are
  parameters of the embedded function: the function is defined for every
  behaviour of its environment.
-/

deriving instance DecidableEq for Except

namespace ChromeTea

/-! ## The parts of the Go standard library the source calls -/

namespace Strings

/-- Go `strings.HasPrefix(s, p)`: `s` starts with `p`. -/
def HasPrefix (s p : String) : Bool :=
  p.data.isPrefixOf s.data

/-- Go `strings.TrimPrefix(s, p)`: `s` without the leading `p`, or `s` itself
when `s` does not start with `p`. -/
def TrimPrefix (s p : String) : String :=
  if HasPrefix s p then ⟨s.data.drop p.data.length⟩ else s

/-- Go `unicode.IsSpace`: the code points with the Unicode White_Space
property. -/
def isSpace (c : Char) : Bool :=
  let n := c.toNat
  n == 0x09 || n == 0x0A || n == 0x0B || n == 0x0C || n == 0x0D || n == 0x20 ||
  n == 0x85 || n == 0xA0 || n == 0x1680 || (0x2000 ≤ n && n ≤ 0x200A) ||
  n == 0x2028 || n == 0x2029 || n == 0x202F || n == 0x205F || n == 0x3000

/-- Go `strings.TrimSpace(s)`: `s` without leading and trailing white space. -/
def TrimSpace (s : String) : String :=
  ⟨((s.data.dropWhile isSpace).reverse.dropWhile isSpace).reverse⟩

/-- Go `strings.Join(elems, sep)`. -/
def Join : List String → String → String
  | [], _ => ""
  | [a], _ => a
  | a :: b :: rest, sep => a ++ sep ++ Join (b :: rest) sep

/-- Position of the first occurrence of `sub` in `s` at or after offset `i`
(the search loop of `strings.Index`). -/
def indexFrom (sub : List Char) : List Char → Nat → Option Nat
  | [], i => if sub.isEmpty then some i else none
  | c :: cs, i => if sub.isPrefixOf (c :: cs) then some i else indexFrom sub cs (i + 1)

/-- Go `strings.Index(s, sub)`: offset of the first occurrence of `sub` in `s`;
`none` stands for the result `-1`. -/
def Index (s sub : String) : Option Nat :=
  indexFrom sub.data s.data 0

end Strings

/-! ## Endpoint discovery (`addrFromStderr`) -/

/-- What a `bufio.Scanner` over the process's stderr delivers: the lines that
successive `Scan` calls return and, once they are exhausted, the value of
`scanner.Err()` (`none` for a clean end of stream). -/
structure StderrStream where
  lines : List String
  readErr : Option String
  deriving Repr, DecidableEq

/-- The sentinel `prefix` of `addrFromStderr`. -/
def sentinel : String := "DevTools listening on"

/-- State of `addrFromStderr` when its `for scanner.Scan()` loop is left. -/
structure ScanState where
  url : String
  lines : List String
  /-- The loop was left through `break`. -/
  broke : Bool
  deriving Repr, DecidableEq

/-- The `for scanner.Scan()` loop of `addrFromStderr`, started with the
accumulated `lines`. -/
def scanLoop (url : String) (lines : List String) : List String → ScanState
  | [] => ⟨url, lines, false⟩
  | line :: rest =>
    let s := Strings.TrimPrefix line sentinel
    if s != line then
      ⟨Strings.TrimSpace s, lines, true⟩
    else
      scanLoop url (lines ++ [line]) rest

/-- Go `addrFromStderr`: the address announced on the sentinel line, or an
error. -/
def addrFromStderr (rc : StderrStream) : Except String String :=
  let st := scanLoop "" [] rc.lines
  -- scanner.Err(): a read error is only met when the scanner ran to its end
  match (if st.broke then none else rc.readErr) with
  | some err => .error err
  | none =>
    if st.url == "" then
      .error ("chrome stopped too early; stderr:\n" ++ Strings.Join st.lines "\n")
    else
      .ok st.url

/-! ## Flags, options and the allocator configuration -/

/-- A flag value: the Go `interface{}` stored in `initFlags`, by dynamic type.
`other` stands for a value that is neither a `string` nor a `bool`. -/
inductive FlagValue where
  | str (s : String)
  | bool (b : Bool)
  | other (descr : String)
  deriving Repr, DecidableEq

/-- The Go `map[string]interface{}` of `initFlags`: an association list whose
keys are pairwise distinct (see `FlagMap.WF`).  The position of an entry in the
list carries no meaning: `range` visits a Go map in an unspecified order. -/
abbrev FlagMap := List (String × FlagValue)

/-- The representation invariant of a `FlagMap`: no key occurs twice. -/
def FlagMap.WF (m : FlagMap) : Prop := (m.map Prod.fst).Nodup

instance (m : FlagMap) : Decidable (FlagMap.WF m) := by
  unfold FlagMap.WF; infer_instance

/-- Go `m[k]` with the comma-ok form: the value stored under `k`, if any. -/
def FlagMap.get? : FlagMap → String → Option FlagValue
  | [], _ => none
  | (k, v) :: rest, key => if k = key then some v else FlagMap.get? rest key

/-- Go `m[k] = v`: overwrite the entry of `k`, or add one. -/
def FlagMap.set : FlagMap → String → FlagValue → FlagMap
  | [], key, val => [(key, val)]
  | (k, v) :: rest, key, val =>
    if k = key then (key, val) :: rest else (k, v) :: FlagMap.set rest key val

/-- The orders in which `for name, value := range m` may visit the map `m`:
every arrangement of its entries. -/
def RangeOrder (m : FlagMap) (order : List (String × FlagValue)) : Prop :=
  order.Perm m

instance (m : FlagMap) (order : List (String × FlagValue)) : Decidable (RangeOrder m order) := by
  unfold RangeOrder; infer_instance

/-- Go `ExecAllocator`.  The wait group `wg` is represented by its counter. -/
structure ExecAllocator where
  execPath : String
  initFlags : FlagMap
  wg : Nat
  deriving Repr, DecidableEq

/-- Go `ExecAllocatorOption`: `func(*ExecAllocator)`, as a state transformer. -/
abbrev ExecAllocatorOption := ExecAllocator → ExecAllocator

/-- Go `Flag(name, value)`. -/
def Flag (name : String) (value : FlagValue) : ExecAllocatorOption :=
  fun a => { a with initFlags := FlagMap.set a.initFlags name value }

/-- Go `exec.LookPath`, a parameter: the path found and the error, if any. -/
abbrev LookPathFn := String → String × Option String

/-- Go `ExecPath(path)`. -/
def ExecPath (lookPath : LookPathFn) (path : String) : ExecAllocatorOption :=
  fun a =>
    let fullPath := (lookPath path).1
    if fullPath != "" then { a with execPath := fullPath } else { a with execPath := path }

/-- The candidates that `findExecPath` probes, in order. -/
def execCandidates : List String :=
  [ "headless_shell", "headless-shell", "chromium", "chromium-browser", "google-chrome",
    "google-chrome-stable", "google-chrome-beta", "google-chrome-unstable",
    "/usr/bin/google-chrome", "chrome", "chrome.exe",
    "C:\\Program Files (x86)\\Google\\Chrome\\Application\\chrome.exe",
    "/Applications/Google Chrome.app/Contents/MacOS/Google Chrome" ]

/-- The loop of `findExecPath` over the remaining candidates. -/
def findExecPathIn (lookPath : LookPathFn) : List String → String
  | [] => "google-chrome"
  | path :: rest =>
    match lookPath path with
    | (found, none) => found
    | (_, some _) => findExecPathIn lookPath rest

/-- Go `findExecPath`. -/
def findExecPath (lookPath : LookPathFn) : String :=
  findExecPathIn lookPath execCandidates

/-- Go `setupExecAllocator(opts...)`. -/
def setupExecAllocator (lookPath : LookPathFn) (opts : List ExecAllocatorOption) :
    ExecAllocator :=
  let ep := opts.foldl (fun ep o => o ep) { execPath := "", initFlags := [], wg := 0 }
  if ep.execPath == "" then { ep with execPath := findExecPath lookPath } else ep

/-- Go `NewExecAllocator(opts...)`. -/
def NewExecAllocator (lookPath : LookPathFn) (opts : List ExecAllocatorOption) :
    ExecAllocator :=
  setupExecAllocator lookPath opts

/-- Go `UserDataDir(dir)`. -/
def UserDataDir (dir : String) : ExecAllocatorOption := Flag "user-data-dir" (.str dir)

/-- Go `ProxyServer(proxy)`. -/
def ProxyServer (proxy : String) : ExecAllocatorOption := Flag "proxy-server" (.str proxy)

/-- Go `WindowSize(width, height)`. -/
def WindowSize (width height : Int) : ExecAllocatorOption :=
  Flag "window-size" (.str (toString width ++ "," ++ toString height))

/-- Go `UserAgent(userAgent)`. -/
def UserAgent (userAgent : String) : ExecAllocatorOption := Flag "user-agent" (.str userAgent)

/-- Go `NoSandbox`. -/
def NoSandbox : ExecAllocatorOption := Flag "no-sandbox" (.bool true)

/-- Go `NoFirstRun`. -/
def NoFirstRun : ExecAllocatorOption := Flag "no-first-run" (.bool true)

/-- Go `NoDefaultBrowserCheck`. -/
def NoDefaultBrowserCheck : ExecAllocatorOption := Flag "no-default-browser-check" (.bool true)

/-- Go `Headless`: three flags, applied in sequence. -/
def Headless : ExecAllocatorOption :=
  fun a => Flag "mute-audio" (.bool true) (Flag "hide-scrollbars" (.bool true)
    (Flag "headless" (.bool true) a))

/-- Go `DisableGPU`. -/
def DisableGPU : ExecAllocatorOption := Flag "disable-gpu" (.bool true)

/-- Go `Incognito`. -/
def Incognito : ExecAllocatorOption := Flag "incognito" (.bool true)

/-- Go `IgnoreCertificateErrors`. -/
def IgnoreCertificateErrors : ExecAllocatorOption := Flag "ignore-certificate-errors" (.bool true)

/-! ## Endpoint normalisation (`forceIP`) and `NewBrowser` -/

/-- Go `s[:i]`; `none` is the run-time panic "slice bounds out of range". -/
def sliceTo (s : String) (i : Nat) : Option String :=
  if i ≤ s.data.length then some ⟨s.data.take i⟩ else none

/-- Go `s[i:]`; `none` is the run-time panic "slice bounds out of range". -/
def sliceFrom (s : String) (i : Nat) : Option String :=
  if i ≤ s.data.length then some ⟨s.data.drop i⟩ else none

/-- Go `net.ResolveIPAddr("ip", host)` followed by `addr.IP.String()`, a
parameter: the textual IP when the lookup succeeds, `none` when it fails. -/
abbrev ResolveFn := String → Option String

/-- Go `forceIP(urlstr)`.  `none` is a run-time panic, `some s` the returned
string. -/
def forceIP (resolve : ResolveFn) (urlstr : String) : Option String :=
  match Strings.Index urlstr "://" with
  | none => some urlstr
  | some i => do
    let scheme ← sliceTo urlstr (i + 3)
    let host0 ← sliceFrom urlstr (scheme.data.length + 3)
    let (host1, path) ←
      match Strings.Index host0 "/" with
      | some j => do pure (← sliceTo host0 j, ← sliceFrom host0 j)
      | none => pure (host0, "")
    let (host, port) ←
      match Strings.Index host1 ":" with
      | some j => do pure (← sliceTo host1 j, ← sliceFrom host1 j)
      | none => pure (host1, "")
    match resolve host with
    | some ip => pure (scheme ++ ip ++ port ++ path)
    | none => pure urlstr

/-- The result of Go `url.Parse`, as far as the embedding needs it. -/
structure URL where
  Scheme : String
  Host : String
  Path : String
  deriving Repr, DecidableEq

/-- Go `Browser` (the logging callbacks and the `LostConnection` channel carry
no data and are left out). -/
structure Browser where
  RawURL : String
  URL : URL
  /-- The field `process`: whether a process handle is attached. -/
  process : Bool
  userDataDir : String
  deriving Repr, DecidableEq

/-- Go `NewBrowser(ctx, urlstr)`; `none` is a panic raised by `forceIP`. -/
def NewBrowser (resolve : ResolveFn) (urlParse : String → Except String URL)
    (urlstr : String) : Option (Except String Browser) :=
  match forceIP resolve urlstr with
  | none => none
  | some urlstr =>
    match urlParse urlstr with
    | .error err => some (.error ("error while parsing browser URL: " ++ err))
    | .ok browserURL =>
      some (.ok { RawURL := urlstr, URL := browserURL, process := false, userDataDir := "" })

/-! ## The process allocator (`Allocate`) -/

/-- The loop `for name, value := range a.initFlags` of `Allocate`, run over the
entries in the order the iteration visits them, with the `args` built so far.
An entry of another dynamic type makes `Allocate` return an error. -/
def renderLoop (args : List String) : List (String × FlagValue) → Except String (List String)
  | [] => .ok args
  | (name, .str value) :: rest => renderLoop (args ++ ["--" ++ name ++ "=" ++ value]) rest
  | (name, .bool value) :: rest =>
    if value then renderLoop (args ++ ["--" ++ name]) rest else renderLoop args rest
  | (_, .other _) :: _ => .error "invalid exec pool flag"

/-- A flag value is valid when it is a string or a boolean. -/
def FlagValue.isStringOrBool : FlagValue → Bool
  | .str _ => true
  | .bool _ => true
  | .other _ => false

/-- The rendering rule in the words of the specification: a string flag stands
for `--name=value`, a true boolean flag for `--name`, anything else for no
argument.  Used to describe what `renderLoop` computes. -/
def flagArgs : String × FlagValue → List String
  | (name, .str value) => ["--" ++ name ++ "=" ++ value]
  | (name, .bool true) => ["--" ++ name]
  | _ => []

/-- Go `os.RemoveAll(path)` on the set of directories on disk: `path` and
everything below it is gone; the empty path removes nothing. -/
def RemoveAll (dirs : List String) (path : String) : List String :=
  if path == "" then dirs
  else dirs.filter (fun d => !(d == path || Strings.HasPrefix d (path ++ "/")))

/-- The environment of one `Allocate` call. -/
structure AllocEnv where
  /-- The order in which `range a.initFlags` visits the map. -/
  order : List (String × FlagValue)
  /-- Go `os.Getuid()`. -/
  uid : Int
  /-- Outcome of `ioutil.TempDir(allocTempDir, "chromedp-runner")`. -/
  tempDir : Except String String
  /-- Error of `cmd.StderrPipe()`, if any. -/
  stderrPipeErr : Option String
  /-- Error of `cmd.Start()`, if any. -/
  startErr : Option String
  /-- What the started process writes to its stderr. -/
  stderr : StderrStream
  resolve : ResolveFn
  urlParse : String → Except String URL

/-- State of `Allocate` once the argument list is complete (line 250). -/
structure ArgsState where
  args : List String
  dataDir : String
  removeDir : Bool
  /-- The directories on disk. -/
  dirs : List String
  deriving Repr, DecidableEq

/-- Lines 215-250 of `Allocate`: the argument list, the data directory and
whether this call owns it.  `dirs` are the directories on disk at the call. -/
def allocateArgs (a : ExecAllocator) (env : AllocEnv) (dirs : List String) :
    Except String ArgsState := do
  let args ← renderLoop [] env.order
  -- dataDir, ok := a.initFlags["user-data-dir"].(string)
  let st ←
    match FlagMap.get? a.initFlags "user-data-dir" with
    | some (.str dataDir) =>
      pure { args := args, dataDir := dataDir, removeDir := false, dirs := dirs : ArgsState }
    | _ =>
      match env.tempDir with
      | .error err => throw err
      | .ok tempDir =>
        pure { args := args ++ ["--user-data-dir=" ++ tempDir], dataDir := tempDir,
               removeDir := true, dirs := tempDir :: dirs : ArgsState }
  let args :=
    if (FlagMap.get? a.initFlags "no-sandbox").isNone && env.uid == 0 then
      st.args ++ ["--no-sandbox"]
    else st.args
  let args := args ++ ["--remote-debugging-port=0"]
  let args := args ++ ["about:blank"]
  pure { st with args := args }

/-- What one `Allocate` call leaves behind. -/
structure AllocResult where
  /-- The returned `(*Browser, error)`; `none` is a panic. -/
  ret : Option (Except String Browser)
  /-- The directories on disk when the call returns. -/
  dirs : List String
  /-- The arguments given to `exec.CommandContext`, when that line is reached. -/
  args : Option (List String)
  /-- Whether `cmd.Start()` succeeded (`cmd.Process != nil`). -/
  started : Bool
  /-- The wait-group counter when the call returns. -/
  wg : Nat
  deriving Repr, DecidableEq

/-- Go `(*ExecAllocator).Allocate(ctx)`, up to its return; `dirs` are the
directories on disk at the call.  The deferred function of lines 253-260 runs
on every return after line 252. -/
def Allocate (a : ExecAllocator) (env : AllocEnv) (dirs : List String) : AllocResult :=
  match allocateArgs a env dirs with
  | .error err => { ret := some (.error err), dirs := dirs, args := none, started := false, wg := a.wg }
  | .ok st =>
    -- defer: if removeDir && cmd.Process == nil then os.RemoveAll(dataDir)
    let deferred (processNil : Bool) : List String :=
      if st.removeDir && processNil then RemoveAll st.dirs st.dataDir else st.dirs
    match env.stderrPipeErr with
    | some err =>
      { ret := some (.error err), dirs := deferred true, args := some st.args,
        started := false, wg := a.wg }
    | none =>
      match env.startErr with
      | some err =>
        { ret := some (.error err), dirs := deferred true, args := some st.args,
          started := false, wg := a.wg }
      | none =>
        -- a.wg.Add(1); the supervising goroutine is started
        match addrFromStderr env.stderr with
        | .error err =>
          { ret := some (.error err), dirs := deferred false, args := some st.args,
            started := true, wg := a.wg + 1 }
        | .ok wsURL =>
          match NewBrowser env.resolve env.urlParse wsURL with
          | none =>
            { ret := none, dirs := deferred false, args := some st.args,
              started := true, wg := a.wg + 1 }
          | some (.error err) =>
            { ret := some (.error err), dirs := deferred false, args := some st.args,
              started := true, wg := a.wg + 1 }
          | some (.ok browser) =>
            { ret := some (.ok { browser with process := true, userDataDir := st.dataDir }),
              dirs := deferred false, args := some st.args, started := true, wg := a.wg + 1 }

/-! ## The abort monitor (`AbortOnErrors`) -/

/-- The `ExceptionDetails` of a `Runtime.exceptionThrown` event. -/
structure ExceptionDetails where
  ExceptionID : Int
  Text : String
  deriving Repr, DecidableEq

/-- A `Network.loadingFailed` event; `Canceled` is the optional `*bool`. -/
structure LoadingFailedReply where
  RequestID : String
  ErrorText : String
  Canceled : Option Bool
  deriving Repr, DecidableEq

/-- A value sent on the `abort` channel. -/
inductive AbortValue where
  | exception (details : ExceptionDetails)
  | err (msg : String)
  deriving Repr, DecidableEq

/-- What one round of the `select` of the monitor receives: the outcome of
`Recv` on the feed that became ready. -/
inductive FeedEvent where
  | exceptionThrown (r : Except String ExceptionDetails)
  | loadingFailed (r : Except String LoadingFailedReply)
  deriving Repr, DecidableEq

/-- State of the monitor goroutine: the values sent on `abort` so far, oldest
first, and whether the `for` loop is still running. -/
structure MonitorState where
  sent : List AbortValue
  running : Bool
  deriving Repr, DecidableEq

/-- One iteration of the `for { select { ... } }` loop of `AbortOnErrors`. -/
def monitorStep (st : MonitorState) : FeedEvent → MonitorState
  | .exceptionThrown (.error err) => { sent := st.sent ++ [.err err], running := false }
  | .exceptionThrown (.ok details) => { st with sent := st.sent ++ [.exception details] }
  | .loadingFailed (.error err) => { sent := st.sent ++ [.err err], running := false }
  | .loadingFailed (.ok ev) =>
    let canceled :=
      match ev.Canceled with
      | some b => b
      | none => false
    if !canceled then
      { st with sent := st.sent ++ [.err ("request " ++ ev.RequestID ++ " failed: " ++ ev.ErrorText)] }
    else st

/-- The goroutine of `AbortOnErrors` over the events its feeds deliver, in the
order `select` receives them: it stops at the first `return`. -/
def monitorLoop (st : MonitorState) : List FeedEvent → MonitorState
  | [] => st
  | ev :: rest => if st.running then monitorLoop (monitorStep st ev) rest else st

/-- Go `AbortOnErrors(ctx, c, abort)`: the returned error and, when both
subscriptions succeed, the behaviour of the goroutine it starts.
`subException` and `subLoading` are the errors of the two subscriptions. -/
def AbortOnErrors (subException subLoading : Option String) (events : List FeedEvent) :
    Option String × MonitorState :=
  match subException with
  | some err => (some err, { sent := [], running := false })
  | none =>
    match subLoading with
    | some err => (some err, { sent := [], running := false })
    | none => (none, monitorLoop { sent := [], running := true } events)

/-! ## Lemmas on the string functions -/

theorem hasPrefix_append (p rest : String) : Strings.HasPrefix (p ++ rest) p = true := by
  simp [Strings.HasPrefix, List.isPrefixOf_iff_prefix]

theorem trimPrefix_append (p rest : String) : Strings.TrimPrefix (p ++ rest) p = rest := by
  simp [Strings.TrimPrefix, hasPrefix_append]

theorem trimPrefix_of_not_hasPrefix (s p : String) (h : Strings.HasPrefix s p = false) :
    Strings.TrimPrefix s p = s := by
  simp [Strings.TrimPrefix, h]

theorem sentinel_append_ne (rest : String) : rest ≠ sentinel ++ rest := by
  intro h
  have hl := congrArg (fun s => s.data.length) h
  simp [sentinel] at hl
  omega

theorem scanLoop_skip (url : String) (acc pre rest : List String)
    (hpre : ∀ l ∈ pre, Strings.HasPrefix l sentinel = false) :
    scanLoop url acc (pre ++ rest) = scanLoop url (acc ++ pre) rest := by
  induction pre generalizing acc with
  | nil => simp
  | cons l pre ih =>
    have hl : Strings.HasPrefix l sentinel = false := hpre l (by simp)
    have ht := trimPrefix_of_not_hasPrefix l sentinel hl
    have hstep : scanLoop url acc (l :: (pre ++ rest)) = scanLoop url (acc ++ [l]) (pre ++ rest) := by
      simp only [scanLoop, ht, bne_self_eq_false, Bool.false_eq_true, if_false]
    rw [List.cons_append, hstep, ih (acc ++ [l]) (fun x hx => hpre x (by simp [hx]))]
    simp

theorem scanLoop_hit (url : String) (acc post : List String) (rest : String) :
    scanLoop url acc ((sentinel ++ rest) :: post) = ⟨Strings.TrimSpace rest, acc, true⟩ := by
  have hne : (rest != sentinel ++ rest) = true := by
    simpa [bne_iff_ne] using sentinel_append_ne rest
  simp only [scanLoop, trimPrefix_append, hne, if_true]

theorem join_contains_line (lines : List String) (sep l : String) (hl : l ∈ lines) :
    l.data <:+: (Strings.Join lines sep).data := by
  induction lines with
  | nil => cases hl
  | cons a t ih =>
    cases t with
    | nil =>
      have : l = a := by simpa using hl
      subst this
      simp [Strings.Join]
    | cons b rest =>
      rcases List.mem_cons.1 hl with h | h
      · subst h
        simp only [Strings.Join, String.data_append, List.append_assoc]
        exact (List.prefix_append _ _).isInfix
      · have := ih h
        simp only [Strings.Join, String.data_append]
        exact this.trans (List.suffix_append _ _).isInfix

theorem scanLoop_none (url : String) (acc lines : List String)
    (h : ∀ l ∈ lines, Strings.HasPrefix l sentinel = false) :
    scanLoop url acc lines = ⟨url, acc ++ lines, false⟩ := by
  have := scanLoop_skip url acc lines [] h
  simpa [scanLoop] using this

theorem monitorLoop_stopped (st : MonitorState) (events : List FeedEvent)
    (h : st.running = false) : monitorLoop st events = st := by
  cases events with
  | nil => rfl
  | cons ev rest => simp [monitorLoop, h]

theorem monitorLoop_append (st : MonitorState) (xs ys : List FeedEvent) :
    monitorLoop st (xs ++ ys) = monitorLoop (monitorLoop st xs) ys := by
  induction xs generalizing st with
  | nil => rfl
  | cons x xs ih =>
    cases hr : st.running with
    | true => simp [monitorLoop, hr, ih]
    | false => simp [monitorLoop, hr, monitorLoop_stopped st ys hr]

/-! ## Endpoint discovery: the claims -/

/-- C1 (counterexample): a sentinel line with nothing but white space after
the prefix makes discovery fail, although a line begins with the prefix and
no read error occurs. -/
theorem addrFromStderr_blank_sentinel_fails :
    Strings.HasPrefix "DevTools listening on  " sentinel = true ∧
    addrFromStderr ⟨["[1:1] warming up", "DevTools listening on  "], none⟩ =
      .error "chrome stopped too early; stderr:\n[1:1] warming up" ∧
    addrFromStderr ⟨["[1:1] warming up", "DevTools listening on  "], none⟩ ≠
      .ok (Strings.TrimSpace "  ") := by
  decide

/-- C1 (amended): when no read error occurs and the first line that begins
with the sentinel prefix has a non-empty remainder after trimming, discovery
succeeds with that trimmed remainder, whatever lines follow. -/
theorem addrFromStderr_first_sentinel (pre post : List String) (rest : String)
    (hpre : ∀ l ∈ pre, Strings.HasPrefix l sentinel = false)
    (hne : Strings.TrimSpace rest ≠ "") :
    addrFromStderr ⟨pre ++ (sentinel ++ rest) :: post, none⟩ = .ok (Strings.TrimSpace rest) := by
  simp only [addrFromStderr]
  rw [scanLoop_skip "" [] pre _ hpre, scanLoop_hit]
  simp [hne]

/-- C1 (witness): the example of the specification, between other lines. -/
theorem addrFromStderr_first_sentinel_witness :
    addrFromStderr ⟨["[1:1] warming up",
        "DevTools listening on ws://127.0.0.1:9999/devtools/browser/abc", "later"], none⟩ =
      .ok "ws://127.0.0.1:9999/devtools/browser/abc" :=
  addrFromStderr_first_sentinel ["[1:1] warming up"] ["later"]
    " ws://127.0.0.1:9999/devtools/browser/abc" (by decide) (by decide)

/-- C2: when the stream ends without a sentinel line and without a read error,
discovery fails with the message "chrome stopped too early; stderr:" followed
by the lines read, in order, joined by newlines; every line read is contained
in the message. -/
theorem addrFromStderr_no_sentinel (lines : List String)
    (h : ∀ l ∈ lines, Strings.HasPrefix l sentinel = false) :
    addrFromStderr ⟨lines, none⟩ =
      .error ("chrome stopped too early; stderr:\n" ++ Strings.Join lines "\n") ∧
    ∀ l ∈ lines,
      l.data <:+: ("chrome stopped too early; stderr:\n" ++ Strings.Join lines "\n").data := by
  constructor
  · simp [addrFromStderr, scanLoop_none "" [] lines h]
  · intro l hl
    rw [String.data_append]
    exact (join_contains_line lines "\n" l hl).trans (List.suffix_append _ _).isInfix

/-- C2 (witness): three lines of warnings and no sentinel. -/
theorem addrFromStderr_no_sentinel_witness :
    addrFromStderr ⟨["warning: a", "warning: b", "warning: c"], none⟩ =
      .error "chrome stopped too early; stderr:\nwarning: a\nwarning: b\nwarning: c" :=
  (addrFromStderr_no_sentinel ["warning: a", "warning: b", "warning: c"] (by decide)).1

/-! ## Endpoint normalisation: the claims -/

/-- C5 (the code at the failing input): with a resolver that knows exactly
"localhost", `forceIP` looks up the host with its first three characters cut
off ("alhost"), finds nothing and returns the endpoint unchanged, not the
endpoint with the resolved IP. -/
theorem forceIP_localhost_unchanged :
    forceIP (fun host => if host = "localhost" then some "127.0.0.1" else none)
        "ws://localhost:9222/devtools/browser/x" =
      some "ws://localhost:9222/devtools/browser/x" ∧
    forceIP (fun host => if host = "localhost" then some "127.0.0.1" else none)
        "ws://localhost:9222/devtools/browser/x" ≠
      some "ws://127.0.0.1:9222/devtools/browser/x" := by
  decide

/-- C6 (the code at the failing input): on "ws://ab" the slice
`urlstr[len(scheme)+3:]` starts at offset 8 of a string of length 7, and
`forceIP` panics, whatever the resolver does. -/
theorem forceIP_short_host_panics (resolve : ResolveFn) : forceIP resolve "ws://ab" = none := by
  rfl

/-! ## The abort monitor: the claims -/

/-- C8: while the monitor is running, a successfully received loading-failed
event whose `Canceled` marker is true sends nothing on the abort channel; one
whose marker is false or absent sends exactly the error
"request <RequestID> failed: <ErrorText>"; either way the monitor keeps
running. -/
theorem abortOnErrors_loadingFailed (events : List FeedEvent) (ev : LoadingFailedReply)
    (hrun : (AbortOnErrors none none events).2.running = true) :
    AbortOnErrors none none (events ++ [.loadingFailed (.ok ev)]) =
      (none,
        { sent := (AbortOnErrors none none events).2.sent ++
            (if ev.Canceled = some true then []
             else [.err ("request " ++ ev.RequestID ++ " failed: " ++ ev.ErrorText)]),
          running := true }) := by
  simp only [AbortOnErrors] at hrun ⊢
  rw [monitorLoop_append]
  generalize monitorLoop { sent := [], running := true } events = st at hrun ⊢
  obtain ⟨sent, running⟩ := st
  simp only at hrun
  subst hrun
  rcases ev with ⟨id, text, c⟩
  rcases c with _ | _ | _ <;> simp [monitorLoop, monitorStep]

/-- C8 (witness): a cancelled failure, an exception, then a failure that is
not cancelled. -/
theorem abortOnErrors_loadingFailed_witness :
    AbortOnErrors none none
        ([.loadingFailed (.ok ⟨"7.1", "net::ERR_ABORTED", some true⟩),
          .exceptionThrown (.ok ⟨1, "Uncaught"⟩)] ++
         [.loadingFailed (.ok ⟨"7.2", "net::ERR_FAILED", none⟩)]) =
      (none,
        { sent := [.exception ⟨1, "Uncaught"⟩, .err "request 7.2 failed: net::ERR_FAILED"],
          running := true }) :=
  abortOnErrors_loadingFailed
    [.loadingFailed (.ok ⟨"7.1", "net::ERR_ABORTED", some true⟩),
     .exceptionThrown (.ok ⟨1, "Uncaught"⟩)]
    ⟨"7.2", "net::ERR_FAILED", none⟩ (by decide)

/-! ## Flag rendering: lemmas -/

theorem renderLoop_eq (args : List String) (l : List (String × FlagValue)) :
    renderLoop args l =
      if l.all (fun e => e.2.isStringOrBool) then .ok (args ++ l.flatMap flagArgs)
      else .error "invalid exec pool flag" := by
  induction l generalizing args with
  | nil => simp [renderLoop]
  | cons e rest ih =>
    obtain ⟨name, value⟩ := e
    cases value with
    | str v =>
      simp only [renderLoop, ih, List.all_cons, FlagValue.isStringOrBool, Bool.true_and,
        List.flatMap_cons, flagArgs, List.append_assoc]
    | bool b =>
      cases b <;>
        simp only [renderLoop, ih, List.all_cons, FlagValue.isStringOrBool, Bool.true_and,
          List.flatMap_cons, flagArgs, List.append_assoc, List.nil_append, if_true,
          Bool.false_eq_true, if_false]
    | other d =>
      simp [renderLoop, FlagValue.isStringOrBool]

theorem renderLoop_valid (args : List String) (l : List (String × FlagValue))
    (h : ∀ e ∈ l, e.2.isStringOrBool = true) :
    renderLoop args l = .ok (args ++ l.flatMap flagArgs) := by
  rw [renderLoop_eq, if_pos (List.all_eq_true.2 h)]

theorem renderLoop_ok (args r : List String) (l : List (String × FlagValue))
    (h : renderLoop args l = .ok r) :
    (∀ e ∈ l, e.2.isStringOrBool = true) ∧ r = args ++ l.flatMap flagArgs := by
  rw [renderLoop_eq] at h
  by_cases hv : l.all (fun e => e.2.isStringOrBool) = true
  · rw [if_pos hv] at h
    exact ⟨List.all_eq_true.1 hv, by injection h with h; exact h.symm⟩
  · rw [if_neg hv] at h
    cases h

theorem all_valid_perm {l₁ l₂ : List (String × FlagValue)} (h : l₁.Perm l₂) :
    l₁.all (fun e => e.2.isStringOrBool) = l₂.all (fun e => e.2.isStringOrBool) := by
  rw [Bool.eq_iff_iff, List.all_eq_true, List.all_eq_true]
  exact ⟨fun H x hx => H x (h.mem_iff.2 hx), fun H x hx => H x (h.mem_iff.1 hx)⟩

/-! ## Flag rendering: the claims -/

/-- C3: in a flag map whose values are all strings or booleans, visited in any
order, a string flag contributes exactly the argument `--name=value`, a true
boolean flag exactly `--name`, and a false boolean flag no argument at all:
the rendered list is what the entries before it give, then that contribution,
then what the entries after it give. -/
theorem renderLoop_contribution (pre post : List (String × FlagValue)) (name : String)
    (hpre : ∀ e ∈ pre, e.2.isStringOrBool = true)
    (hpost : ∀ e ∈ post, e.2.isStringOrBool = true) :
    ∃ a b, renderLoop [] pre = .ok a ∧ renderLoop [] post = .ok b ∧
      (∀ v, renderLoop [] (pre ++ (name, .str v) :: post) =
        .ok (a ++ ["--" ++ name ++ "=" ++ v] ++ b)) ∧
      renderLoop [] (pre ++ (name, .bool true) :: post) = .ok (a ++ ["--" ++ name] ++ b) ∧
      renderLoop [] (pre ++ (name, .bool false) :: post) = .ok (a ++ b) := by
  refine ⟨pre.flatMap flagArgs, post.flatMap flagArgs, ?_, ?_, ?_, ?_, ?_⟩
  · simpa using renderLoop_valid [] pre hpre
  · simpa using renderLoop_valid [] post hpost
  · intro v
    rw [renderLoop_valid]
    · simp [flagArgs]
    · intro e he
      rcases List.mem_append.1 he with h | h
      · exact hpre e h
      · rcases List.mem_cons.1 h with h | h
        · subst h; rfl
        · exact hpost e h
  · rw [renderLoop_valid]
    · simp [flagArgs]
    · intro e he
      rcases List.mem_append.1 he with h | h
      · exact hpre e h
      · rcases List.mem_cons.1 h with h | h
        · subst h; rfl
        · exact hpost e h
  · rw [renderLoop_valid]
    · simp [flagArgs]
    · intro e he
      rcases List.mem_append.1 he with h | h
      · exact hpre e h
      · rcases List.mem_cons.1 h with h | h
        · subst h; rfl
        · exact hpost e h

/-- C3 (witness): a false flag between a string flag and a true flag. -/
theorem renderLoop_contribution_witness :
    renderLoop [] ([("window-size", .str "1920,1048")] ++
        ("headless", .bool false) :: [("incognito", .bool true)]) =
      .ok ["--window-size=1920,1048", "--incognito"] := by
  obtain ⟨a, b, ha, hb, -, -, h⟩ :=
    renderLoop_contribution [("window-size", .str "1920,1048")] [("incognito", .bool true)]
      "headless" (by decide) (by decide)
  have ha2 : renderLoop [] [("window-size", FlagValue.str "1920,1048")] =
      .ok ["--window-size=1920,1048"] := by decide
  have hb2 : renderLoop [] [("incognito", FlagValue.bool true)] = .ok ["--incognito"] := by decide
  rw [ha2] at ha
  rw [hb2] at hb
  injection ha with ha
  injection hb with hb
  subst ha
  subst hb
  exact h

/-- C10 (counterexample): the same two options, built twice, give the same
flag map, and two admissible visiting orders of that map render different
lists. -/
theorem renderLoop_order_dependent :
    RangeOrder
      (setupExecAllocator (fun _ => ("", some "not found"))
        [Flag "headless" (.bool true), Flag "incognito" (.bool true)]).initFlags
      [("headless", .bool true), ("incognito", .bool true)] ∧
    RangeOrder
      (setupExecAllocator (fun _ => ("", some "not found"))
        [Flag "headless" (.bool true), Flag "incognito" (.bool true)]).initFlags
      [("incognito", .bool true), ("headless", .bool true)] ∧
    renderLoop [] [("headless", .bool true), ("incognito", .bool true)] =
      .ok ["--headless", "--incognito"] ∧
    renderLoop [] [("incognito", .bool true), ("headless", .bool true)] =
      .ok ["--incognito", "--headless"] ∧
    renderLoop [] [("headless", .bool true), ("incognito", .bool true)] ≠
      renderLoop [] [("incognito", .bool true), ("headless", .bool true)] := by
  decide

/-- C10 (amended): building the configuration twice from the same options
gives the same flag map; two renderings of it, each in an admissible visiting
order, either both fail with the same error or give lists that are
permutations of each other, and they are identical when the visiting order is
the same. -/
theorem renderLoop_deterministic_up_to_order (lookPath : LookPathFn)
    (opts : List ExecAllocatorOption) (o₁ o₂ : List (String × FlagValue))
    (h₁ : RangeOrder (setupExecAllocator lookPath opts).initFlags o₁)
    (h₂ : RangeOrder (setupExecAllocator lookPath opts).initFlags o₂) :
    (∀ r₁, renderLoop [] o₁ = .ok r₁ → ∃ r₂, renderLoop [] o₂ = .ok r₂ ∧ r₁.Perm r₂) ∧
    (∀ err, renderLoop [] o₁ = .error err → renderLoop [] o₂ = .error err) ∧
    (o₁ = o₂ → renderLoop [] o₁ = renderLoop [] o₂) := by
  have hp : o₁.Perm o₂ := List.Perm.trans h₁ (List.Perm.symm h₂)
  refine ⟨?_, ?_, fun h => by rw [h]⟩
  · intro r₁ hr
    obtain ⟨hv, hr₁⟩ := renderLoop_ok [] r₁ o₁ hr
    refine ⟨o₂.flatMap flagArgs, ?_, ?_⟩
    · simpa using renderLoop_valid [] o₂ (fun e he => hv e (hp.mem_iff.2 he))
    · subst hr₁
      simpa using hp.flatMap_right flagArgs
  · intro err hr
    rw [renderLoop_eq] at hr ⊢
    rw [← all_valid_perm hp]
    by_cases hv : o₁.all (fun e => e.2.isStringOrBool) = true
    · rw [if_pos hv] at hr
      cases hr
    · rw [if_neg hv] at hr ⊢
      exact hr

/-- C10 (witness): the two visiting orders of the counterexample render
permutations of each other. -/
theorem renderLoop_deterministic_up_to_order_witness :
    ∃ r₂, renderLoop [] [("incognito", .bool true), ("headless", .bool true)] = .ok r₂ ∧
      ["--headless", "--incognito"].Perm r₂ :=
  (renderLoop_deterministic_up_to_order (fun _ => ("", some "not found"))
    [Flag "headless" (.bool true), Flag "incognito" (.bool true)]
    [("headless", .bool true), ("incognito", .bool true)]
    [("incognito", .bool true), ("headless", .bool true)] (by decide) (by decide)).1
    ["--headless", "--incognito"] (by decide)

/-! ## The flag map: lemmas -/

theorem get?_set (m : FlagMap) (k k' : String) (v : FlagValue) :
    FlagMap.get? (FlagMap.set m k v) k' = if k = k' then some v else FlagMap.get? m k' := by
  induction m with
  | nil => simp [FlagMap.set, FlagMap.get?]
  | cons e rest ih =>
    obtain ⟨k₀, v₀⟩ := e
    by_cases h : k₀ = k
    · subst h
      by_cases h' : k₀ = k' <;> simp [FlagMap.set, FlagMap.get?, h']
    · by_cases h' : k₀ = k'
      · subst h'
        have hne : ¬ k = k₀ := fun h'' => h h''.symm
        simp [FlagMap.set, FlagMap.get?, h, hne]
      · simp [FlagMap.set, FlagMap.get?, h, h', ih]

theorem keys_set (m : FlagMap) (k : String) (v : FlagValue) :
    (FlagMap.set m k v).map Prod.fst =
      if k ∈ m.map Prod.fst then m.map Prod.fst else m.map Prod.fst ++ [k] := by
  induction m with
  | nil => simp [FlagMap.set]
  | cons e rest ih =>
    obtain ⟨k₀, v₀⟩ := e
    by_cases h : k₀ = k
    · subst h
      simp [FlagMap.set]
    · have hne : ¬ k = k₀ := fun h'' => h h''.symm
      by_cases hm : k ∈ rest.map Prod.fst
      · simp only [FlagMap.set, h, if_false, List.map_cons, ih, if_pos hm, List.mem_cons, hne,
          false_or]
      · simp only [FlagMap.set, h, if_false, List.map_cons, ih, if_neg hm, List.mem_cons, hne,
          false_or, List.cons_append]

theorem wf_set (m : FlagMap) (k : String) (v : FlagValue) (h : FlagMap.WF m) :
    FlagMap.WF (FlagMap.set m k v) := by
  unfold FlagMap.WF at h ⊢
  rw [keys_set]
  by_cases hm : k ∈ m.map Prod.fst
  · rw [if_pos hm]; exact h
  · rw [if_neg hm]
    rw [List.nodup_append]
    refine ⟨h, List.nodup_singleton k, ?_⟩
    intro a ha hb
    have : a = k := by simpa using hb
    subst this
    exact hm ha

theorem get?_eq_none_iff (m : FlagMap) (k : String) :
    FlagMap.get? m k = none ↔ ∀ e ∈ m, e.1 ≠ k := by
  induction m with
  | nil => simp [FlagMap.get?]
  | cons e rest ih =>
    obtain ⟨k₀, v₀⟩ := e
    by_cases h : k₀ = k
    · simp [FlagMap.get?, h]
    · simp [FlagMap.get?, h, ih]

theorem get?_eq_some_iff (m : FlagMap) (k : String) (v : FlagValue) (hwf : FlagMap.WF m) :
    FlagMap.get? m k = some v ↔ (k, v) ∈ m := by
  induction m with
  | nil => simp [FlagMap.get?]
  | cons e rest ih =>
    obtain ⟨k₀, v₀⟩ := e
    have hwf' : FlagMap.WF rest := (List.nodup_cons.1 hwf).2
    have hk₀ : k₀ ∉ rest.map Prod.fst := (List.nodup_cons.1 hwf).1
    by_cases h : k₀ = k
    · subst h
      have hnot : (k₀, v) ∉ rest := fun hm => hk₀ (List.mem_map.2 ⟨(k₀, v), hm, rfl⟩)
      simp only [FlagMap.get?, if_true, Option.some.injEq, List.mem_cons, Prod.mk.injEq,
        true_and, hnot, or_false]
      exact eq_comm
    · have hne : ¬ k = k₀ := fun h'' => h h''.symm
      simp only [FlagMap.get?, h, if_false, ih hwf', List.mem_cons, Prod.mk.injEq, hne,
        false_and, false_or]

/-- The flag map that a sequence of `Flag` options builds from `m`. -/
theorem foldl_Flag_initFlags (flags : List (String × FlagValue)) (a : ExecAllocator) :
    ((flags.map (fun f => Flag f.1 f.2)).foldl (fun ep o => o ep) a).initFlags =
      flags.foldl (fun m f => FlagMap.set m f.1 f.2) a.initFlags := by
  induction flags generalizing a with
  | nil => rfl
  | cons f rest ih =>
    simp only [List.map_cons, List.foldl_cons]
    rw [ih]
    rfl

theorem setup_initFlags (lookPath : LookPathFn) (flags : List (String × FlagValue)) :
    (setupExecAllocator lookPath (flags.map (fun f => Flag f.1 f.2))).initFlags =
      flags.foldl (fun m f => FlagMap.set m f.1 f.2) [] := by
  unfold setupExecAllocator
  simp only []
  split
  · exact foldl_Flag_initFlags flags _
  · exact foldl_Flag_initFlags flags _

theorem wf_foldl_set (flags : List (String × FlagValue)) (m : FlagMap) (h : FlagMap.WF m) :
    FlagMap.WF (flags.foldl (fun m f => FlagMap.set m f.1 f.2) m) := by
  induction flags generalizing m with
  | nil => exact h
  | cons f rest ih => exact ih _ (wf_set m f.1 f.2 h)

theorem get?_foldl_set_of_not_named (post : List (String × FlagValue)) (m : FlagMap)
    (name : String) (h : ∀ f ∈ post, f.1 ≠ name) :
    FlagMap.get? (post.foldl (fun m f => FlagMap.set m f.1 f.2) m) name =
      FlagMap.get? m name := by
  induction post generalizing m with
  | nil => rfl
  | cons f rest ih =>
    simp only [List.foldl_cons]
    rw [ih _ (fun g hg => h g (by simp [hg])), get?_set, if_neg (h f (by simp))]

theorem get?_foldl_set_last (pre post : List (String × FlagValue)) (m : FlagMap)
    (name : String) (v : FlagValue) (h : ∀ f ∈ post, f.1 ≠ name) :
    FlagMap.get? ((pre ++ (name, v) :: post).foldl (fun m f => FlagMap.set m f.1 f.2) m) name =
      some v := by
  rw [List.foldl_append, List.foldl_cons, get?_foldl_set_of_not_named post _ name h, get?_set]
  simp

/-! ## The argument list: lemmas -/

theorem dashes_append_inj (x y : String) (h : "--" ++ x = "--" ++ y) : x = y := by
  have := congrArg String.data h
  simp only [String.data_append, List.append_cancel_left_eq] at this
  exact String.ext this

theorem str_arg_ne (k v name : String) (hname : '=' ∉ name.data) :
    "--" ++ k ++ "=" ++ v ≠ "--" ++ name := by
  intro h
  rw [String.append_assoc, String.append_assoc] at h
  have := dashes_append_inj _ _ h
  subst this
  apply hname
  simp only [String.data_append, List.mem_append]
  exact Or.inr (Or.inl (by decide))

theorem userDataDir_arg_ne (t name : String) (hname : '=' ∉ name.data) :
    "--user-data-dir=" ++ t ≠ "--" ++ name := by
  intro h
  have h' : "--" ++ ("user-data-dir=" ++ t) = "--" ++ name := by
    rw [← h]
    apply String.ext
    simp only [String.data_append, ← List.append_assoc]
    rfl
  have := dashes_append_inj _ _ h'
  subst this
  apply hname
  simp only [String.data_append, List.mem_append]
  exact Or.inl (by decide)

theorem port_arg_ne (name : String) (hname : '=' ∉ name.data) :
    "--remote-debugging-port=0" ≠ "--" ++ name := by
  intro h
  have h' : "--" ++ "remote-debugging-port=0" = "--" ++ name := h
  have := dashes_append_inj _ _ h'
  subst this
  exact hname (by decide)

theorem blank_arg_ne (name : String) : "about:blank" ≠ "--" ++ name := by
  intro h
  have := congrArg (fun s => s.data.head?) h
  have h1 : ("about:blank" : String).data.head? = some 'a' := rfl
  have h2 : ("--" ++ name).data.head? = some '-' := rfl
  simp only [h1, h2] at this
  exact absurd this (by decide)

theorem noSandbox_arg_eq_iff (name : String) : "--no-sandbox" = "--" ++ name ↔ name = "no-sandbox" := by
  constructor
  · intro h
    have h' : "--" ++ "no-sandbox" = "--" ++ name := h
    exact (dashes_append_inj _ _ h').symm
  · intro h
    subst h
    rfl

/-- How often `--name` is rendered by a map without duplicate keys, for a name
without an equals sign: once when the map holds `(name, true)`, else never. -/
theorem count_flagArgs (l : List (String × FlagValue)) (name : String)
    (hname : '=' ∉ name.data) (hnd : (l.map Prod.fst).Nodup) :
    (l.flatMap flagArgs).count ("--" ++ name) = if (name, FlagValue.bool true) ∈ l then 1 else 0 := by
  induction l with
  | nil => simp
  | cons e rest ih =>
    obtain ⟨k, v⟩ := e
    have hnd' : (rest.map Prod.fst).Nodup := (List.nodup_cons.1 hnd).2
    have hk : k ∉ rest.map Prod.fst := (List.nodup_cons.1 hnd).1
    rw [List.flatMap_cons, List.count_append, ih hnd']
    cases v with
    | str s =>
      have h1 : (flagArgs (k, FlagValue.str s)).count ("--" ++ name) = 0 := by
        simp only [flagArgs, List.count_singleton, beq_iff_eq]
        rw [if_neg (str_arg_ne k s name hname)]
      simp [h1]
    | other d =>
      simp [flagArgs]
    | bool b =>
      cases b with
      | false => simp [flagArgs]
      | true =>
        by_cases hkn : k = name
        · subst hkn
          have hnot : (k, FlagValue.bool true) ∉ rest :=
            fun hm => hk (List.mem_map.2 ⟨_, hm, rfl⟩)
          simp [flagArgs, hnot]
        · have hne : ¬ name = k := fun h => hkn h.symm
          have h1 : (flagArgs (k, FlagValue.bool true)).count ("--" ++ name) = 0 := by
            simp only [flagArgs, List.count_singleton, beq_iff_eq]
            rw [if_neg (fun h => hkn (dashes_append_inj _ _ h))]
          simp [h1, hne]

/-- The shape of the state that `allocateArgs` returns. -/
theorem allocateArgs_ok (a : ExecAllocator) (env : AllocEnv) (dirs : List String)
    (st : ArgsState) (h : allocateArgs a env dirs = .ok st) :
    ∃ r, renderLoop [] env.order = .ok r ∧
      st.args = r ++ (if st.removeDir then ["--user-data-dir=" ++ st.dataDir] else []) ++
        (if (FlagMap.get? a.initFlags "no-sandbox").isNone && env.uid == 0
          then ["--no-sandbox"] else []) ++
        ["--remote-debugging-port=0", "about:blank"] ∧
      ((st.removeDir = false ∧ st.dirs = dirs ∧
          FlagMap.get? a.initFlags "user-data-dir" = some (.str st.dataDir)) ∨
       (st.removeDir = true ∧ st.dirs = st.dataDir :: dirs ∧ env.tempDir = .ok st.dataDir ∧
          ∀ d, FlagMap.get? a.initFlags "user-data-dir" ≠ some (.str d))) := by
  unfold allocateArgs at h
  cases hr : renderLoop [] env.order with
  | error e => simp [hr, bind, Except.bind] at h
  | ok r =>
    refine ⟨r, rfl, ?_⟩
    simp only [hr, bind, Except.bind] at h
    cases hu : FlagMap.get? a.initFlags "user-data-dir" with
    | none =>
      cases ht : env.tempDir with
      | error e => simp [hu, ht, throw, throwThe, MonadExceptOf.throw] at h
      | ok t =>
        simp only [hu, ht, pure, Except.pure, Except.ok.injEq] at h
        subst h
        by_cases hs : ((FlagMap.get? a.initFlags "no-sandbox").isNone && env.uid == 0) = true
        · simp [hs]
        · simp [hs]
    | some v =>
      cases v with
      | str d =>
        simp only [hu, pure, Except.pure, Except.ok.injEq] at h
        subst h
        by_cases hs : ((FlagMap.get? a.initFlags "no-sandbox").isNone && env.uid == 0) = true
        · simp [hs]
        · simp [hs]
      | bool b =>
        cases ht : env.tempDir with
        | error e => simp [hu, ht, throw, throwThe, MonadExceptOf.throw] at h
        | ok t =>
          simp only [hu, ht, pure, Except.pure, Except.ok.injEq] at h
          subst h
          by_cases hs : ((FlagMap.get? a.initFlags "no-sandbox").isNone && env.uid == 0) = true
          · simp [hs]
          · simp [hs]
      | other x =>
        cases ht : env.tempDir with
        | error e => simp [hu, ht, throw, throwThe, MonadExceptOf.throw] at h
        | ok t =>
          simp only [hu, ht, pure, Except.pure, Except.ok.injEq] at h
          subst h
          by_cases hs : ((FlagMap.get? a.initFlags "no-sandbox").isNone && env.uid == 0) = true
          · simp [hs]
          · simp [hs]

theorem allocate_args (a : ExecAllocator) (env : AllocEnv) (dirs : List String) :
    (Allocate a env dirs).args =
      match allocateArgs a env dirs with
      | .ok st => some st.args
      | .error _ => none := by
  unfold Allocate
  cases allocateArgs a env dirs with
  | error e => rfl
  | ok st =>
    simp only
    cases env.stderrPipeErr with
    | some e => rfl
    | none =>
      cases env.startErr with
      | some e => rfl
      | none =>
        simp only
        cases addrFromStderr env.stderr with
        | error e => rfl
        | ok u =>
          simp only
          cases NewBrowser env.resolve env.urlParse u with
          | none => rfl
          | some b => cases b <;> rfl

theorem allocate_args_some (a : ExecAllocator) (env : AllocEnv) (dirs args : List String)
    (h : (Allocate a env dirs).args = some args) :
    ∃ st, allocateArgs a env dirs = .ok st ∧ st.args = args := by
  rw [allocate_args] at h
  cases hst : allocateArgs a env dirs with
  | error e => simp [hst] at h
  | ok st => exact ⟨st, rfl, by simpa [hst] using h⟩

/-- How often `--name` occurs in the argument list of `Allocate`, for a name
without an equals sign. -/
theorem args_count (a : ExecAllocator) (env : AllocEnv) (dirs : List String) (st : ArgsState)
    (name : String) (hname : '=' ∉ name.data) (hwf : FlagMap.WF a.initFlags)
    (hord : RangeOrder a.initFlags env.order) (h : allocateArgs a env dirs = .ok st) :
    st.args.count ("--" ++ name) =
      (if FlagMap.get? a.initFlags name = some (.bool true) then 1 else 0) +
      (if name = "no-sandbox" ∧ FlagMap.get? a.initFlags "no-sandbox" = none ∧ env.uid = 0
        then 1 else 0) := by
  obtain ⟨r, hr, hargs, -⟩ := allocateArgs_ok a env dirs st h
  obtain ⟨-, hr'⟩ := renderLoop_ok [] r env.order hr
  have hnd : (env.order.map Prod.fst).Nodup := ((List.Perm.map Prod.fst hord).nodup_iff).2 hwf
  have hmem : (name, FlagValue.bool true) ∈ env.order ↔
      FlagMap.get? a.initFlags name = some (.bool true) := by
    rw [get?_eq_some_iff _ _ _ hwf]
    exact hord.mem_iff
  have hcr : r.count ("--" ++ name) =
      if FlagMap.get? a.initFlags name = some (.bool true) then 1 else 0 := by
    rw [hr', List.nil_append, count_flagArgs env.order name hname hnd]
    by_cases hm : (name, FlagValue.bool true) ∈ env.order
    · rw [if_pos hm, if_pos (hmem.1 hm)]
    · rw [if_neg hm, if_neg (fun h' => hm (hmem.2 h'))]
  have hud : (if st.removeDir then ["--user-data-dir=" ++ st.dataDir] else []).count
      ("--" ++ name) = 0 := by
    by_cases hrd : st.removeDir = true
    · rw [if_pos hrd, List.count_singleton]
      simp [userDataDir_arg_ne st.dataDir name hname]
    · rw [if_neg hrd]; rfl
  have htail : ["--remote-debugging-port=0", "about:blank"].count ("--" ++ name) = 0 := by
    rw [List.count_cons, List.count_singleton]
    simp [port_arg_ne name hname, blank_arg_ne name]
  have hsb : (if (FlagMap.get? a.initFlags "no-sandbox").isNone && env.uid == 0
        then ["--no-sandbox"] else []).count ("--" ++ name) =
      if name = "no-sandbox" ∧ FlagMap.get? a.initFlags "no-sandbox" = none ∧ env.uid = 0
        then 1 else 0 := by
    by_cases hc : ((FlagMap.get? a.initFlags "no-sandbox").isNone && env.uid == 0) = true
    · have hc' : FlagMap.get? a.initFlags "no-sandbox" = none ∧ env.uid = 0 := by
        simpa [Option.isNone_iff_eq_none] using hc
      rw [if_pos hc, List.count_singleton]
      by_cases hn : name = "no-sandbox"
      · have he : ("--no-sandbox" == "--" ++ name) = true :=
          beq_iff_eq.2 ((noSandbox_arg_eq_iff name).2 hn)
        have hp : name = "no-sandbox" ∧ FlagMap.get? a.initFlags "no-sandbox" = none ∧
            env.uid = 0 := ⟨hn, hc'⟩
        rw [if_pos he, if_pos hp]
      · have he : ¬ ("--no-sandbox" == "--" ++ name) = true :=
          fun h' => hn ((noSandbox_arg_eq_iff name).1 (beq_iff_eq.1 h'))
        have hp : ¬ (name = "no-sandbox" ∧ FlagMap.get? a.initFlags "no-sandbox" = none ∧
            env.uid = 0) := fun h' => hn h'.1
        rw [if_neg he, if_neg hp]
    · have hc' : ¬ (FlagMap.get? a.initFlags "no-sandbox" = none ∧ env.uid = 0) := by
        simpa [Option.isNone_iff_eq_none] using hc
      rw [if_neg hc, if_neg (fun h' => hc' h'.2)]
      rfl
  rw [hargs, List.count_append, List.count_append, List.count_append, hcr, hud, hsb, htail]
  omega

theorem mem_removeAll (dirs : List String) (path d : String) (hpath : path ≠ "")
    (hd : d ∈ RemoveAll (path :: dirs) path) : d ∈ dirs ∧ d ≠ path := by
  unfold RemoveAll at hd
  have hp : (path == "") = false := by simpa using hpath
  simp only [hp, Bool.false_eq_true, if_false, List.mem_filter, List.mem_cons, Bool.not_eq_true',
    Bool.or_eq_false_iff, beq_eq_false_iff_ne, ne_eq] at hd
  obtain ⟨hmem, hne, -⟩ := hd
  rcases hmem with h | h
  · exact absurd h hne
  · exact ⟨h, hne⟩

/-- The outcome of `Allocate` when the argument list cannot be built. -/
theorem allocate_of_args_error (a : ExecAllocator) (env : AllocEnv) (dirs : List String)
    (err : String) (h : allocateArgs a env dirs = .error err) :
    Allocate a env dirs =
      { ret := some (.error err), dirs := dirs, args := none, started := false, wg := a.wg } := by
  simp only [Allocate, h]

/-- The outcome of `Allocate` when the process cannot be started. -/
theorem allocate_of_not_started (a : ExecAllocator) (env : AllocEnv) (dirs : List String)
    (st : ArgsState) (h : allocateArgs a env dirs = .ok st)
    (hfail : (Allocate a env dirs).started = false) :
    ∃ err, Allocate a env dirs =
      { ret := some (.error err),
        dirs := if st.removeDir then RemoveAll st.dirs st.dataDir else st.dirs,
        args := some st.args, started := false, wg := a.wg } := by
  unfold Allocate at hfail ⊢
  simp only [h] at hfail ⊢
  cases hp : env.stderrPipeErr with
  | some e => exact ⟨e, by simp⟩
  | none =>
    cases hs : env.startErr with
    | some e => exact ⟨e, by simp⟩
    | none =>
      simp only [hp, hs] at hfail
      cases hu : addrFromStderr env.stderr with
      | error e => simp [hu] at hfail
      | ok u =>
        simp only [hu] at hfail
        cases hb : NewBrowser env.resolve env.urlParse u with
        | none => simp [hb] at hfail
        | some b =>
          cases b with
          | error e => simp [hb] at hfail
          | ok b => simp [hb] at hfail

/-! ## Options, the sandbox default and cleanup: the claims -/

/-- C4 (counterexample): the boolean flag "a=b", whose last value is true, and
the string flag "a" with value "b" render the same argument, so "--a=b" occurs
twice in the rendered list and in the argument list of `Allocate`. -/
theorem flag_rendered_twice :
    FlagMap.get?
      (setupExecAllocator (fun _ => ("", some "not found"))
        [Flag "a=b" (.bool true), Flag "a" (.str "b")]).initFlags "a=b" = some (.bool true) ∧
    renderLoop []
      (setupExecAllocator (fun _ => ("", some "not found"))
        [Flag "a=b" (.bool true), Flag "a" (.str "b")]).initFlags = .ok ["--a=b", "--a=b"] ∧
    (Allocate
      (setupExecAllocator (fun _ => ("", some "not found"))
        [Flag "a=b" (.bool true), Flag "a" (.str "b")])
      { order := [("a=b", .bool true), ("a", .str "b")], uid := 1000,
        tempDir := .ok "/tmp/chromedp-runner042", stderrPipeErr := none,
        startErr := some "exec: not found", stderr := ⟨[], none⟩,
        resolve := fun _ => none, urlParse := fun _ => .error "unused" } []).args =
      some ["--a=b", "--a=b", "--user-data-dir=/tmp/chromedp-runner042",
        "--remote-debugging-port=0", "about:blank"] ∧
    (["--a=b", "--a=b"].count ("--" ++ "a=b") = 2) := by
  decide

/-- C4 (amended): the flag map built from a sequence of `Flag` options has no
duplicate name and holds, for each name, the value of the last option naming
it (and nothing for a name no option names).  For a name without an equals
sign and any visiting order of the map: if the last value is the boolean true,
`--name` occurs exactly once in the rendered list and in the argument list of
`Allocate`; if it is the boolean false, `--name` occurs in neither. -/
theorem flags_last_write_wins (lookPath : LookPathFn) (flags : List (String × FlagValue)) :
    FlagMap.WF (setupExecAllocator lookPath (flags.map (fun f => Flag f.1 f.2))).initFlags ∧
    (∀ pre name v post, flags = pre ++ (name, v) :: post → (∀ f ∈ post, f.1 ≠ name) →
      FlagMap.get? (setupExecAllocator lookPath (flags.map (fun f => Flag f.1 f.2))).initFlags
        name = some v) ∧
    (∀ name, (∀ f ∈ flags, f.1 ≠ name) →
      FlagMap.get? (setupExecAllocator lookPath (flags.map (fun f => Flag f.1 f.2))).initFlags
        name = none) ∧
    (∀ name env dirs r args, '=' ∉ name.data →
      RangeOrder (setupExecAllocator lookPath (flags.map (fun f => Flag f.1 f.2))).initFlags
        env.order →
      renderLoop [] env.order = .ok r →
      (Allocate (setupExecAllocator lookPath (flags.map (fun f => Flag f.1 f.2))) env dirs).args =
        some args →
      (FlagMap.get? (setupExecAllocator lookPath (flags.map (fun f => Flag f.1 f.2))).initFlags
          name = some (.bool true) →
        r.count ("--" ++ name) = 1 ∧ args.count ("--" ++ name) = 1) ∧
      (FlagMap.get? (setupExecAllocator lookPath (flags.map (fun f => Flag f.1 f.2))).initFlags
          name = some (.bool false) →
        "--" ++ name ∉ r ∧ "--" ++ name ∉ args)) := by
  have hwf : FlagMap.WF
      (setupExecAllocator lookPath (flags.map (fun f => Flag f.1 f.2))).initFlags := by
    rw [setup_initFlags]
    exact wf_foldl_set flags [] List.nodup_nil
  refine ⟨hwf, ?_, ?_, ?_⟩
  · intro pre name v post hflags hpost
    rw [setup_initFlags, hflags]
    exact get?_foldl_set_last pre post [] name v hpost
  · intro name hname
    rw [setup_initFlags, get?_foldl_set_of_not_named flags [] name hname]
    rfl
  · intro name env dirs r args hname hord hr hargs
    obtain ⟨st, hst, hsa⟩ := allocate_args_some _ env dirs args hargs
    have hcount := args_count _ env dirs st name hname hwf hord hst
    rw [hsa] at hcount
    obtain ⟨-, hr'⟩ := renderLoop_ok [] r env.order hr
    have hnd : (env.order.map Prod.fst).Nodup :=
      ((List.Perm.map Prod.fst hord).nodup_iff).2 hwf
    have hrc := count_flagArgs env.order name hname hnd
    rw [List.nil_append] at hr'
    rw [← hr'] at hrc
    constructor
    · intro hget
      have hmem : (name, FlagValue.bool true) ∈ env.order :=
        hord.mem_iff.2 ((get?_eq_some_iff _ _ _ hwf).1 hget)
      have hns : ¬ (name = "no-sandbox" ∧
          FlagMap.get?
            (setupExecAllocator lookPath (flags.map (fun f => Flag f.1 f.2))).initFlags
            "no-sandbox" = none ∧ env.uid = 0) := by
        rintro ⟨h1, h2, -⟩
        subst h1
        rw [hget] at h2
        cases h2
      rw [if_pos hget, if_neg hns] at hcount
      rw [if_pos hmem] at hrc
      exact ⟨hrc, hcount⟩
    · intro hget
      have hne : ¬ FlagMap.get?
          (setupExecAllocator lookPath (flags.map (fun f => Flag f.1 f.2))).initFlags
          name = some (.bool true) := by
        rw [hget]; intro h; cases h
      have hmem : (name, FlagValue.bool true) ∉ env.order :=
        fun hm => hne ((get?_eq_some_iff _ _ _ hwf).2 (hord.mem_iff.1 hm))
      have hns : ¬ (name = "no-sandbox" ∧
          FlagMap.get?
            (setupExecAllocator lookPath (flags.map (fun f => Flag f.1 f.2))).initFlags
            "no-sandbox" = none ∧ env.uid = 0) := by
        rintro ⟨h1, h2, -⟩
        subst h1
        rw [hget] at h2
        cases h2
      rw [if_neg hne, if_neg hns] at hcount
      rw [if_neg hmem] at hrc
      exact ⟨List.count_eq_zero.1 hrc, List.count_eq_zero.1 hcount⟩

/-- C4 (witness): "headless" given as true, false and true again, with
"incognito" in between, is rendered once. -/
theorem flags_last_write_wins_witness :
    FlagMap.get?
      (setupExecAllocator (fun _ => ("", some "not found"))
        ([("headless", FlagValue.bool true), ("headless", .bool false),
          ("incognito", .bool true), ("headless", .bool true)].map
            (fun f => Flag f.1 f.2))).initFlags "headless" = some (.bool true) ∧
    ["--incognito", "--headless"].count ("--" ++ "headless") = 1 ∧
    ["--incognito", "--headless", "--user-data-dir=/tmp/chromedp-runner042", "--no-sandbox",
      "--remote-debugging-port=0", "about:blank"].count ("--" ++ "headless") = 1 :=
  ⟨(flags_last_write_wins (fun _ => ("", some "not found"))
      [("headless", .bool true), ("headless", .bool false), ("incognito", .bool true),
        ("headless", .bool true)]).2.1
      [("headless", .bool true), ("headless", .bool false), ("incognito", .bool true)]
      "headless" (.bool true) [] rfl (by decide),
   ((flags_last_write_wins (fun _ => ("", some "not found"))
      [("headless", .bool true), ("headless", .bool false), ("incognito", .bool true),
        ("headless", .bool true)]).2.2.2
      "headless"
      { order := [("incognito", .bool true), ("headless", .bool true)], uid := 0,
        tempDir := .ok "/tmp/chromedp-runner042", stderrPipeErr := none,
        startErr := some "exec: not found", stderr := ⟨[], none⟩,
        resolve := fun _ => none, urlParse := fun _ => .error "unused" }
      [] ["--incognito", "--headless"]
      ["--incognito", "--headless", "--user-data-dir=/tmp/chromedp-runner042", "--no-sandbox",
        "--remote-debugging-port=0", "about:blank"]
      (by decide) (by decide) (by decide) (by decide)).1 (by decide)⟩

/-- C9: for a flag map without duplicate names, visited in any order, and any
user id: whenever `Allocate` builds its argument list, "--no-sandbox" is in it
exactly when the no-sandbox flag is the boolean true, or the user id is 0 and
the map has no no-sandbox entry; and the list is built whenever all values are
strings or booleans and the temporary directory can be created. -/
theorem allocate_noSandbox (a : ExecAllocator) (env : AllocEnv) (dirs : List String)
    (hwf : FlagMap.WF a.initFlags) (hord : RangeOrder a.initFlags env.order) :
    ((∀ e ∈ a.initFlags, e.2.isStringOrBool = true) → (∃ t, env.tempDir = .ok t) →
      ∃ args, (Allocate a env dirs).args = some args) ∧
    (∀ args, (Allocate a env dirs).args = some args →
      ("--no-sandbox" ∈ args ↔
        FlagMap.get? a.initFlags "no-sandbox" = some (.bool true) ∨
        (env.uid = 0 ∧ FlagMap.get? a.initFlags "no-sandbox" = none))) := by
  constructor
  · intro hvalid ⟨t, ht⟩
    have hr : renderLoop [] env.order = .ok ([] ++ env.order.flatMap flagArgs) :=
      renderLoop_valid [] env.order (fun e he => hvalid e (hord.mem_iff.1 he))
    rw [allocate_args]
    cases hst : allocateArgs a env dirs with
    | ok st => exact ⟨st.args, rfl⟩
    | error err =>
      exfalso
      unfold allocateArgs at hst
      simp only [hr, bind, Except.bind, ht] at hst
      split at hst <;> simp [pure, Except.pure] at hst
  · intro args hargs
    obtain ⟨st, hst, hsa⟩ := allocate_args_some a env dirs args hargs
    have hcount := args_count a env dirs st "no-sandbox" (by decide) hwf hord hst
    rw [hsa] at hcount
    have hlit : "--" ++ "no-sandbox" = "--no-sandbox" := by decide
    rw [hlit] at hcount
    rw [← List.count_pos_iff, hcount]
    by_cases h1 : FlagMap.get? a.initFlags "no-sandbox" = some (.bool true)
    · simp [h1]
    · by_cases h2 : FlagMap.get? a.initFlags "no-sandbox" = none ∧ env.uid = 0
      · simp [h1, h2]
      · have h2' : ¬ (env.uid = 0 ∧ FlagMap.get? a.initFlags "no-sandbox" = none) :=
          fun h => h2 ⟨h.2, h.1⟩
        simp [h1, h2, h2']

/-- C9 (witness): running as root with an explicit `Flag("no-sandbox", false)`:
the automatic flag is suppressed. -/
theorem allocate_noSandbox_witness :
    ¬ ("--no-sandbox" ∈
      ["--headless", "--user-data-dir=/tmp/chromedp-runner042", "--remote-debugging-port=0",
        "about:blank"]) :=
  fun hmem =>
    absurd
      (((allocate_noSandbox
        (setupExecAllocator (fun _ => ("", some "not found"))
          [Flag "no-sandbox" (.bool false), Flag "headless" (.bool true)])
        { order := [("headless", .bool true), ("no-sandbox", .bool false)], uid := 0,
          tempDir := .ok "/tmp/chromedp-runner042", stderrPipeErr := none,
          startErr := none, stderr := ⟨[], none⟩,
          resolve := fun _ => none, urlParse := fun _ => .error "unused" }
        [] (by decide) (by decide)).2
        ["--headless", "--user-data-dir=/tmp/chromedp-runner042", "--remote-debugging-port=0",
          "about:blank"] (by decide)).1 hmem)
      (by decide)

/-- C7: when `Allocate` returns without having started the process, it returns
an error, every directory on disk afterwards was on disk before the call, the
temporary directory the call created is gone, and with a caller-supplied
user-data-dir the directories on disk are untouched.  (The path that
`ioutil.TempDir` returns is taken to be non-empty.) -/
theorem allocate_early_failure_cleanup (a : ExecAllocator) (env : AllocEnv)
    (dirs : List String) (htmp : ∀ t, env.tempDir = .ok t → t ≠ "")
    (hfail : (Allocate a env dirs).started = false) :
    (∃ err, (Allocate a env dirs).ret = some (.error err)) ∧
    (∀ d ∈ (Allocate a env dirs).dirs, d ∈ dirs) ∧
    (∀ st, allocateArgs a env dirs = .ok st → st.removeDir = true →
      st.dataDir ∉ (Allocate a env dirs).dirs) ∧
    (∀ d, FlagMap.get? a.initFlags "user-data-dir" = some (.str d) →
      (Allocate a env dirs).dirs = dirs) := by
  cases hst : allocateArgs a env dirs with
  | error err =>
    rw [allocate_of_args_error a env dirs err hst]
    exact ⟨⟨err, rfl⟩, fun d hd => hd, fun st h => Except.noConfusion h, fun d _ => rfl⟩
  | ok st =>
    obtain ⟨err, hA⟩ := allocate_of_not_started a env dirs st hst hfail
    obtain ⟨r, -, -, hshape⟩ := allocateArgs_ok a env dirs st hst
    rw [hA]
    rcases hshape with ⟨hrd, hdirs, hget⟩ | ⟨hrd, hdirs, htd, hget⟩
    · refine ⟨⟨err, rfl⟩, ?_, ?_, ?_⟩
      · intro d hd
        simpa [hrd, hdirs] using hd
      · intro st' hst' hrd'
        injection hst' with hst'
        subst hst'
        rw [hrd] at hrd'
        cases hrd'
      · intro d _
        simp [hrd, hdirs]
    · have hne : st.dataDir ≠ "" := htmp st.dataDir htd
      refine ⟨⟨err, rfl⟩, ?_, ?_, ?_⟩
      · intro d hd
        simp only [hrd, if_true, hdirs] at hd
        exact (mem_removeAll dirs st.dataDir d hne hd).1
      · intro st' hst' _
        injection hst' with hst'
        subst hst'
        intro hd
        simp only [hrd, if_true, hdirs] at hd
        exact (mem_removeAll dirs st.dataDir st.dataDir hne hd).2 rfl
      · intro d hd
        exact absurd hd (hget d)

/-- C7 (witness): the browser binary is missing, so `cmd.Start` fails after the
temporary directory was created; the directory is removed again. -/
theorem allocate_early_failure_cleanup_witness :
    (Allocate (setupExecAllocator (fun _ => ("", some "not found")) [Headless])
      { order := [("headless", .bool true), ("hide-scrollbars", .bool true),
          ("mute-audio", .bool true)], uid := 1000,
        tempDir := .ok "/tmp/chromedp-runner042", stderrPipeErr := none,
        startErr := some "exec: not found", stderr := ⟨[], none⟩,
        resolve := fun _ => none, urlParse := fun _ => .error "unused" }
      ["/home/u/profile"]).started = false ∧
    ∀ d ∈ (Allocate (setupExecAllocator (fun _ => ("", some "not found")) [Headless])
      { order := [("headless", .bool true), ("hide-scrollbars", .bool true),
          ("mute-audio", .bool true)], uid := 1000,
        tempDir := .ok "/tmp/chromedp-runner042", stderrPipeErr := none,
        startErr := some "exec: not found", stderr := ⟨[], none⟩,
        resolve := fun _ => none, urlParse := fun _ => .error "unused" }
      ["/home/u/profile"]).dirs, d ∈ ["/home/u/profile"] :=
  ⟨by decide,
   (allocate_early_failure_cleanup
      (setupExecAllocator (fun _ => ("", some "not found")) [Headless])
      { order := [("headless", .bool true), ("hide-scrollbars", .bool true),
          ("mute-audio", .bool true)], uid := 1000,
        tempDir := .ok "/tmp/chromedp-runner042", stderrPipeErr := none,
        startErr := some "exec: not found", stderr := ⟨[], none⟩,
        resolve := fun _ => none, urlParse := fun _ => .error "unused" }
      ["/home/u/profile"]
      (fun t ht => by injection ht with ht; subst ht; decide)
      (by decide)).2.1⟩

end ChromeTea
